import Mathlib

/-!
Verification development for the Control backend task-execution engine.

The definitions below are a shallow embedding of the Python sources:

* `act_backend.py` — the main engine: JSON extraction in `send_to_llm` and
  `ActionVerifier._send_verification_to_llm`, per-action verification in
  `ActionVerifier.verify_action`, the per-step retry loop
  `ComputerUseAgentBackend.execute_action_with_verification`, the step loop
  with replanning and cancellation in `_execute_task_with_verification`,
  the task entry point `execute_task`, the action dispatcher
  `execute_action`, and the frontend request loop `run_frontend_loop`.
* `backends/enhanced_act_backend.py` — the held-keys bookkeeping of
  `EnhancedActionExecutor` (`execute_press`, `execute_release`,
  `release_all_keys`) and the terminal paths of
  `EnhancedComputerUseAgentBackend.execute_task`.

External effects (the LLM oracle, pyautogui, subprocess, the screen) are
modelled as inputs: each run is parameterised by the outcomes those calls
return.  All machine behaviour that the source itself determines (control
flow, counters, messages, state updates) is translated directly.
-/

/-! ### JSON extraction (act_backend.py lines 360-368 and 1000-1008)

Both `send_to_llm` and `_send_verification_to_llm` extract JSON from the raw
LLM text with the same two regex searches:

    json_match = re.search(r'```json\s*(.*?)\s*```', response_text, re.DOTALL)
    ... else: json_match = re.search(r'\{.*\}', response_text, re.DOTALL)
    ... else: raise ValueError("No JSON found")

`fencedSearch` embeds the first search: the fenced pattern matches at the
leftmost occurrence of the opening marker, the lazy group ends at the first
closing marker after it, and the surrounding `\s*` strip whitespace from the
group.  `braceSearch` embeds the second: with DOTALL and a greedy `.*` the
match runs from the first opening brace that has some closing brace after it
to the last closing brace of the text. -/

def wsChar (c : Char) : Bool :=
  c = ' ' || c = '\t' || c = '\n' || c = '\r' || c = '\x0b' || c = '\x0c'

def trimWs (s : List Char) : List Char :=
  ((s.dropWhile wsChar).reverse.dropWhile wsChar).reverse

/-- First occurrence of `pat` in a character list: returns the part before
the occurrence and the part after it. -/
def splitFirst (pat : List Char) : List Char → Option (List Char × List Char)
  | [] => if pat.isEmpty then some ([], []) else none
  | c :: rest =>
    if pat.isPrefixOf (c :: rest) then some ([], (c :: rest).drop pat.length)
    else
      match splitFirst pat rest with
      | some (a, b) => some (c :: a, b)
      | none => none

/-- Embeds `re.search(r'```json\s*(.*?)\s*```', text, re.DOTALL).group(1)`. -/
def fencedSearch (s : List Char) : Option (List Char) :=
  match splitFirst ("```json".toList) s with
  | none => none
  | some (_, rest) =>
    match splitFirst ("```".toList) rest with
    | none => none
    | some (mid, _) => some (trimWs mid)

/-- Prefix of `s` up to and including the last occurrence of `ch`. -/
def cutAfterLast (ch : Char) : List Char → Option (List Char)
  | [] => none
  | c :: rest =>
    match cutAfterLast ch rest with
    | some t => some (c :: t)
    | none => if c = ch then some [c] else none

/-- Embeds `re.search(r'\{.*\}', text, re.DOTALL).group()`: the match starts
at the first opening brace that is followed by some closing brace and, since
`.*` is greedy, runs to the last closing brace of the text. -/
def braceSearch : List Char → Option (List Char)
  | [] => none
  | c :: rest =>
    if c = '\x7b' then
      match cutAfterLast '\x7d' rest with
      | some t => some (c :: t)
      | none => braceSearch rest
    else braceSearch rest

/-- The extraction pipeline of `send_to_llm` /
`_send_verification_to_llm`: fenced block first, else brace span, else the
`ValueError("No JSON found")` outcome (`none`). -/
def extractJson (s : List Char) : Option (List Char) :=
  match fencedSearch s with
  | some t => some t
  | none => braceSearch s

/-- True iff some opening brace is followed (strictly later) by some
closing brace. -/
def hasBracePair : List Char → Bool
  | [] => false
  | c :: rest => (c = '\x7b' && rest.contains '\x7d') || hasBracePair rest

/-- Scans `s` after an opening brace at nesting depth `d`: returns the
characters consumed up to the brace that returns the depth to zero. -/
def takeBalanced : List Char → Nat → Option (List Char)
  | _, 0 => some []
  | [], _ + 1 => none
  | c :: rest, d + 1 =>
    match takeBalanced rest (if c = '\x7b' then d + 2 else if c = '\x7d' then d else d + 1) with
    | some t => some (c :: t)
    | none => none

/-- The first balanced brace span of the text, as the specification words
the fallback extraction ("else first balanced brace span").  Used only to
compare the specified behaviour against `braceSearch`. -/
def specFirstBalancedBraceSpan : List Char → Option (List Char)
  | [] => none
  | c :: rest =>
    if c = '\x7b' then
      match takeBalanced rest 1 with
      | some t => some (c :: t)
      | none => specFirstBalancedBraceSpan rest
    else specFirstBalancedBraceSpan rest

/-- Extraction pipeline as the specification words it: fenced block first,
else first balanced brace span, else no JSON found. -/
def specExtractJson (s : List Char) : Option (List Char) :=
  match fencedSearch s with
  | some t => some t
  | none => specFirstBalancedBraceSpan s

/-! ### Verifier (act_backend.py, class ActionVerifier, lines 262-378)

`verify_action(action, result)` auto-verifies when the step declares no (or
an empty) `verification` map; otherwise it takes a screenshot and delegates
to `_send_verification_to_llm`, which catches every exception (timeout,
transport error, missing or unparsable JSON) and degrades it to a
`verification_status: "error"` response.  The outer `try` of `verify_action`
likewise converts any exception raised inside `verify_action` itself into a
`status: "error"` verdict.  The judge's behaviour on one call is an input: -/

structure VResponse where
  verification_status : String
  observations : String
  retry_suggestion : Option String
  requires_reanalysis : Bool
  deriving DecidableEq

inductive JudgeBehavior where
  /-- An exception raised inside `verify_action` itself (outer `except`,
  lines 328-334). -/
  | outerRaises (m : String)
  /-- An exception raised inside `_send_verification_to_llm` (its own
  `except`, lines 372-378): judge timeout, API failure, no JSON in the
  judge output, or a JSON decode error. -/
  | llmRaises (m : String)
  /-- The judge returned a parsed verdict dictionary. -/
  | responds (r : VResponse)
  deriving DecidableEq

/-- `_send_verification_to_llm`: a raised exception becomes the error
response dictionary (which has no `retry_suggestion` or
`requires_reanalysis` key, hence `none` / `false` under `.get`). -/
def sendVerificationToLLM : JudgeBehavior → VResponse
  | .llmRaises m => ⟨"error", "Error during verification: " ++ m, none, false⟩
  | .responds r => r
  | .outerRaises m => ⟨"error", m, none, false⟩

/-- Result of `verify_action`.  `detailsReanalysis` records the value the
engine later reads as `verification.get('details', {}).get('requires_reanalysis')`
(false whenever the verdict carries no `details` key or the details dict
lacks the key).  `judgeCalls` and `observationsTaken` instrument how many
judge requests and fresh screenshots this call performed. -/
structure VerifyResult where
  verified : Bool
  status : String
  message : String
  retrySuggestion : Option String
  requiresReanalysis : Bool
  detailsReanalysis : Bool
  judgeCalls : Nat
  observationsTaken : Nat
  deriving DecidableEq

/-- `ActionVerifier.verify_action` (lines 262-334).  `hasVerification` is
`bool(action.get('verification', {}))`: false both when the key is absent
and when the declared map is empty. -/
def verify_action (hasVerification : Bool) (jb : JudgeBehavior) : VerifyResult :=
  if hasVerification = false then
    ⟨true, "success", "No verification specified, assuming success", none, false, false, 0, 0⟩
  else
    match jb with
    | .outerRaises m =>
      ⟨false, "error", "Verification error: " ++ m, none, false, false, 0, 0⟩
    | jb2 =>
      if (sendVerificationToLLM jb2).verification_status = "success" then
        ⟨true, "success", (sendVerificationToLLM jb2).observations, none, false,
          (sendVerificationToLLM jb2).requires_reanalysis, 1, 1⟩
      else
        ⟨false, (sendVerificationToLLM jb2).verification_status,
          "Verification failed: " ++ (sendVerificationToLLM jb2).observations,
          (sendVerificationToLLM jb2).retry_suggestion,
          (sendVerificationToLLM jb2).requires_reanalysis,
          (sendVerificationToLLM jb2).requires_reanalysis, 1, 1⟩

/-! ### Per-step retry loop
(`ComputerUseAgentBackend.execute_action_with_verification`, lines 540-622)

The loop `for retry in range(max_retries)` executes the step's action once
per iteration, verifies it, and either returns or continues.  When the
previous verification's details set `requires_reanalysis`, an extra
`analyze_ui` action is executed before the next attempt.  The actuator and
judge outcomes of the run are inputs indexed by the retry number. -/

structure ActResult where
  success : Bool
  message : String
  deriving DecidableEq

structure StepOutcome where
  success : Bool
  verified : Bool
  message : String
  /-- Number of `execute_action` invocations on the step's own action. -/
  mainCalls : Nat
  /-- Number of extra `execute_action` invocations on the `analyze_ui`
  reanalysis action. -/
  reanalysisCalls : Nat
  judgeCalls : Nat
  observationsTaken : Nat
  deriving DecidableEq

/-- Adds the counters of the current iteration to the outcome of the
remaining iterations. -/
def addC (o : StepOutcome) (m r j ob : Nat) : StepOutcome :=
  ⟨o.success, o.verified, o.message, o.mainCalls + m, o.reanalysisCalls + r,
    o.judgeCalls + j, o.observationsTaken + ob⟩

/-- One pass of the `for retry in range(max_retries)` loop from `retry`
onwards.  `fuel` counts the iterations that remain (`maxRetries - retry`);
the fuel-exhausted value is the loop's unreachable fall-through return
`{"success": False, "message": "Max retries exceeded"}`.  `reana` is the
current `ui_context.get('requires_reanalysis')`. -/
def stepGo (act : Nat → ActResult) (judge : Nat → JudgeBehavior)
    (hasVerification : Bool) (maxRetries : Nat) :
    Nat → Nat → Bool → StepOutcome
  | _, 0, _ => ⟨false, false, "Max retries exceeded", 0, 0, 0, 0⟩
  | retry, fuel + 1, reana =>
    if (act retry).success = false then
      if retry < maxRetries - 1 then
        addC (stepGo act judge hasVerification maxRetries (retry + 1) fuel reana)
          1 (if 0 < retry && reana then 1 else 0) 0 0
      else
        ⟨false, false, "Action failed after " ++ toString maxRetries ++ " attempts",
          1, if 0 < retry && reana then 1 else 0, 0, 0⟩
    else
      if (verify_action hasVerification (judge retry)).verified = true then
        ⟨true, true, (verify_action hasVerification (judge retry)).message,
          1, if 0 < retry && reana then 1 else 0,
          (verify_action hasVerification (judge retry)).judgeCalls,
          (verify_action hasVerification (judge retry)).observationsTaken⟩
      else
        if retry < maxRetries - 1 then
          addC (stepGo act judge hasVerification maxRetries (retry + 1) fuel
              (verify_action hasVerification (judge retry)).detailsReanalysis)
            1 (if 0 < retry && reana then 1 else 0)
            (verify_action hasVerification (judge retry)).judgeCalls
            (verify_action hasVerification (judge retry)).observationsTaken
        else
          ⟨false, false, (verify_action hasVerification (judge retry)).message,
            1, if 0 < retry && reana then 1 else 0,
            (verify_action hasVerification (judge retry)).judgeCalls,
            (verify_action hasVerification (judge retry)).observationsTaken⟩

/-- `self.max_action_retries` (act_backend.py line 400). -/
def max_action_retries : Nat := 3

/-- `execute_action_with_verification(action, ...)`: the loop starts at
retry 0 with an empty `ui_context`. -/
def execute_action_with_verification (act : Nat → ActResult)
    (judge : Nat → JudgeBehavior) (hasVerification : Bool) : StepOutcome :=
  stepGo act judge hasVerification max_action_retries 0 max_action_retries false

/-! ### Engine step loop
(`ComputerUseAgentBackend._execute_task_with_verification`, lines 1083-1264)

The `while current_step < len(actions)` loop reads the cancellation flag
`self.stop_event.is_set()` exactly once per iteration, at the top of the
body (lines 1100-1106); on observation it reports an unsuccessful
`task_complete` and returns.  Otherwise it runs the current step through
`execute_action_with_verification`.  A successful, verified step advances
`current_step`; a failed step sets `task_success = False` and requests a
recovery plan from the oracle: a parsable recovery replaces
`actions[current_step:]` and the loop re-runs at the same index, an
unparsable one breaks out of the loop.  A step only carries the data the
loop branches on, namely whether it declares a verification map, so plans
are lists of such flags.  The oracle, actuator, judge and cancellation
behaviours of a run are inputs: per loop iteration `it` the actuator and
judge behaviours for that step attempt, per recovery request `rq` the
parsed replacement suffix (`none` when the recovery response has error
status or is not task-typed). -/

structure EngineEnv where
  cancel : Nat → Bool
  act : Nat → Nat → ActResult
  judge : Nat → Nat → JudgeBehavior
  recovery : Nat → Option (List Bool)

inductive EngineEvent where
  | stepAttempt (idx : Nat) (outcome : StepOutcome)
  | replan (idx : Nat) (parsable : Bool)
  | cancelledAt (iter : Nat)
  deriving DecidableEq

inductive TaskResult where
  /-- The cancellation return at lines 1100-1106. -/
  | cancelled
  /-- The loop ended (normally or by the recovery `break`) and control
  reached the final-verification block; `taskSuccess` is the internal
  `task_success` flag at that point. -/
  | finished (taskSuccess : Bool)
  | outOfFuel
  deriving DecidableEq

structure EngineResultT where
  events : List EngineEvent
  result : TaskResult
  deriving DecidableEq

/-- The step loop.  `actions` is the current plan (one flag per step),
`cur` is `current_step`, `it` numbers the loop iterations (indexing the
actuator/judge inputs), `rq` numbers the recovery requests, `ts` is
`task_success`. -/
def engineLoop (env : EngineEnv) :
    Nat → List Bool → Nat → Nat → Nat → Bool → EngineResultT
  | 0, _, _, _, _, _ => ⟨[], .outOfFuel⟩
  | fuel + 1, actions, cur, it, rq, ts =>
    if h : cur < actions.length then
      if env.cancel it = true then
        ⟨[.cancelledAt it], .cancelled⟩
      else
        if (execute_action_with_verification (env.act it) (env.judge it)
            (actions.get ⟨cur, h⟩)).success = true then
          ⟨.stepAttempt cur (execute_action_with_verification (env.act it) (env.judge it)
              (actions.get ⟨cur, h⟩)) ::
            (engineLoop env fuel actions (cur + 1) (it + 1) rq ts).events,
           (engineLoop env fuel actions (cur + 1) (it + 1) rq ts).result⟩
        else
          match env.recovery rq with
          | some newActions =>
            ⟨.stepAttempt cur (execute_action_with_verification (env.act it) (env.judge it)
                (actions.get ⟨cur, h⟩)) ::
              .replan cur true ::
              (engineLoop env fuel (actions.take cur ++ newActions) cur (it + 1) (rq + 1)
                false).events,
             (engineLoop env fuel (actions.take cur ++ newActions) cur (it + 1) (rq + 1)
               false).result⟩
          | none =>
            ⟨[.stepAttempt cur (execute_action_with_verification (env.act it) (env.judge it)
                (actions.get ⟨cur, h⟩)),
              .replan cur false], .finished false⟩
    else ⟨[], .finished ts⟩

def eventMainCalls : EngineEvent → Nat
  | .stepAttempt _ o => o.mainCalls
  | _ => 0

def eventReanalysisCalls : EngineEvent → Nat
  | .stepAttempt _ o => o.reanalysisCalls
  | _ => 0

def eventJudgeCalls : EngineEvent → Nat
  | .stepAttempt _ o => o.judgeCalls
  | _ => 0

def totalMainCalls (es : List EngineEvent) : Nat := (es.map eventMainCalls).sum

def totalReanalysisCalls (es : List EngineEvent) : Nat := (es.map eventReanalysisCalls).sum

def totalJudgeCalls (es : List EngineEvent) : Nat := (es.map eventJudgeCalls).sum

def isFailedAttempt : EngineEvent → Bool
  | .stepAttempt _ o => !o.success
  | _ => false

def isReplan : EngineEvent → Bool
  | .replan _ _ => true
  | _ => false

def isReplanAt (i : Nat) : EngineEvent → Bool
  | .replan j _ => j == i
  | _ => false

/-- What `send_task_complete` reports for a run: on the cancellation path
the code sends `success=False` directly (line 1105); on the
final-verification path it sends the `completed` flag of the external
completion judgment (line 1240), here an input `finalJudgment`. -/
def reportedTaskComplete (finalJudgment : Bool) : TaskResult → Option Bool
  | .cancelled => some false
  | .finished _ => some finalJudgment
  | .outOfFuel => none

/-! ### Task entry point (`ComputerUseAgentBackend.execute_task`, lines 1037-1081)

After the initial screenshot, the parsed oracle reply is inspected: an
error status aborts ("Failed to process request"), a reply whose `type` is
not `task` is rejected ("I can only perform actions in Act mode..."), and
only a task-typed reply enters `_execute_task_with_verification`. -/

structure LLMReply where
  isError : Bool
  ty : String
  actions : List Bool
  deriving DecidableEq

inductive RunOutcome where
  | screenshotFailed
  | requestFailed
  | rejected
  | ran (tr : EngineResultT)
  deriving DecidableEq

def execute_task (screenshotOk : Bool) (reply : LLMReply) (env : EngineEnv)
    (fuel : Nat) : RunOutcome :=
  if screenshotOk = false then .screenshotFailed
  else if reply.isError = true then .requestFailed
  else if reply.ty ≠ "task" then .rejected
  else .ran (engineLoop env fuel reply.actions 0 0 0 true)

/-- Total `execute_action` invocations a run performed. -/
def runActuatorCalls : RunOutcome → Nat
  | .ran tr => totalMainCalls tr.events + totalReanalysisCalls tr.events
  | _ => 0

/-! ### Frontend request loop
(`ComputerUseAgentBackend.run_frontend_loop`, lines 1266-1336)

On an `execute_task` request the loop rejects with "Agent is busy with
another task" when `self.execution_thread` is still alive; otherwise it
clears the stop event and, when the request text is non-empty, starts a new
worker thread.  A `cancel_task` request sets the stop event.  The loop keeps
no record of completed tasks.  Worker termination is an external event. -/

structure FrontState where
  workerAlive : Bool
  stopSet : Bool
  startedTasks : List String
  deriving DecidableEq

inductive FrontEvent where
  | request (ty : String) (text : String)
  | workerFinished
  deriving DecidableEq

inductive FrontResponse where
  | busyError
  | started
  | cancelRequested
  | ignored
  deriving DecidableEq

def frontStep (st : FrontState) : FrontEvent → FrontState × Option FrontResponse
  | .workerFinished => (⟨false, st.stopSet, st.startedTasks⟩, none)
  | .request ty text =>
    if ty = "execute_task" then
      if st.workerAlive = true then (st, some .busyError)
      else if text = "" then (⟨st.workerAlive, false, st.startedTasks⟩, some .ignored)
      else (⟨true, false, st.startedTasks ++ [text]⟩, some .started)
    else if ty = "cancel_task" then (⟨st.workerAlive, true, st.startedTasks⟩, some .cancelRequested)
    else (st, none)

def frontRun : FrontState → List FrontEvent → FrontState × List (Option FrontResponse)
  | st, [] => (st, [])
  | st, e :: rest =>
    match frontStep st e with
    | (st1, r) =>
      match frontRun st1 rest with
      | (st2, rs) => (st2, r :: rs)

/-! ### Held-keys bookkeeping and terminal cleanup
(`backends/enhanced_act_backend.py`)

`EnhancedActionExecutor` records pressed-and-held keys in `self.held_keys`
(`execute_press` adds, `execute_release` discards, `release_all_keys`
clears; lines 424-483).  `EnhancedComputerUseAgentBackend.execute_task`
calls `release_all_keys` at line 1064, inside its `try` block after the
main loop, so the cleanup runs on any normal termination of the loop
(`finished()` action, step limit, LLM-error or parse-failure `break`) but
not when an exception escapes the loop: the `except` branch (lines
1066-1068) and the `finally` branch only report the error and clean up
screenshots.  A run is abstracted as the sequence of the events that touch
the held-keys state or terminate the task. -/

structure ExecutorState where
  heldKeys : List String
  deriving DecidableEq

def insertHeld (k : String) (hs : List String) : List String :=
  if hs.contains k then hs else hs ++ [k]

/-- `EnhancedActionExecutor.execute_press` (lines 424-446). -/
def execute_press (avail : Bool) (k : String) (st : ExecutorState) :
    ExecutorState × ActResult :=
  if avail = false then (st, ⟨false, "pyautogui not available"⟩)
  else (⟨insertHeld k st.heldKeys⟩, ⟨true, "Pressed and holding: " ++ k⟩)

/-- `EnhancedActionExecutor.execute_release` (lines 448-470). -/
def execute_release (avail : Bool) (k : String) (st : ExecutorState) :
    ExecutorState × ActResult :=
  if avail = false then (st, ⟨false, "pyautogui not available"⟩)
  else (⟨st.heldKeys.filter (fun x => x != k)⟩, ⟨true, "Released: " ++ k⟩)

/-- `EnhancedActionExecutor.release_all_keys` (lines 472-483). -/
def release_all_keys (avail : Bool) (st : ExecutorState) : ExecutorState :=
  if avail = false then st else ⟨[]⟩

inductive EnhEvent where
  | press (k : String)
  | release (k : String)
  | otherAction
  /-- The oracle emitted `finished(...)`: the loop breaks and control
  reaches the cleanup at line 1064. -/
  | finishAction
  /-- An exception escaped to the `except` branch at lines 1066-1068. -/
  | raiseExn (m : String)
  deriving DecidableEq

/-- The held-keys effect of one enhanced-backend run: final executor state
and whether the run terminated normally (`true`) or via the exception
branch (`false`).  An exhausted event list stands for any normal loop exit
(step limit, LLM-error break, parse-failure break), all of which reach the
`release_all_keys` call at line 1064. -/
def runEnhancedTask (avail : Bool) : List EnhEvent → ExecutorState → ExecutorState × Bool
  | [], st => (release_all_keys avail st, true)
  | .press k :: rest, st => runEnhancedTask avail rest (execute_press avail k st).1
  | .release k :: rest, st => runEnhancedTask avail rest (execute_release avail k st).1
  | .otherAction :: rest, st => runEnhancedTask avail rest st
  | .finishAction :: _, st => (release_all_keys avail st, true)
  | .raiseExn _ :: _, st => (st, false)

/-! ### Action dispatcher (`ComputerUseAgentBackend.execute_action`, lines 624-908)

The dispatcher lower-cases `action.get('action', '')`, branches on the
resulting string, and wraps the whole body in `try/except`, so any raised
exception is folded into `{"success": False, "message": str(e)}` (no branch
sets `success = True` before a statement that can raise).  The `terminal`
and `execute_pyautogui` branches carry their own inner `try`.  Outcomes of
the external calls (pyautogui primitives, subprocess, the focus-window
retry loop, screenshots) are inputs. -/

inductive PyVal where
  | str (s : String)
  /-- A non-string value: `.lower()` raises `AttributeError`, caught by the
  top-level `except`; `desc` stands for the exception text. -/
  | other (desc : String)
  deriving DecidableEq

structure Params where
  coordinates : Option (List Int)
  end_coordinates : Option (List Int)
  text : String
  keys : List String
  command : String
  duration : Nat
  app_name : String
  action_description : String
  direction : String
  amount : Int
  deriving DecidableEq

structure ExecEnv where
  guiAvailable : Bool
  /-- Path returned by `take_screenshot` (it catches internally and returns
  `""` on failure). -/
  screenshotPath : String
  /-- When `some m`, the pyautogui / subprocess primitive of the current
  branch raises with message `m`. -/
  pyRaise : Option String
  /-- Outcome of the `terminal` branch's `subprocess.run`: either an
  exception message or (returncode == 0, truncated output). -/
  terminalOut : Except String (Bool × String)
  /-- Abstraction of the `focus_window` verification loop: whether focus
  was eventually verified. -/
  focusVerified : Bool
  /-- When `some m`, the `exec` inside `execute_pyautogui` raises `m`
  (caught by that branch's inner `try`). -/
  execPyRaise : Option String

structure ExecOutcome where
  success : Bool
  message : String
  requiresApproval : Bool
  deriving DecidableEq

/-- Python's `str.lower()` on the action kind, as a structurally recursive
map over the characters (adequate for the ASCII kind names). -/
def pyLower (s : String) : String :=
  ⟨s.data.map Char.toLower⟩

def pyCall (env : ExecEnv) : Except String Unit :=
  match env.pyRaise with
  | some m => .error m
  | none => .ok ()

/-- `x, y = somelist` — unpacking raises unless the list has exactly two
elements. -/
def unpack2 (l : List Int) : Except String (Int × Int) :=
  match l with
  | [x, y] => .ok (x, y)
  | _ => .error "coordinate unpack failed"

/-- Body of the `try` in `execute_action`: `.error m` models an exception
reaching the top-level `except`. -/
def execute_action_body (env : ExecEnv) (ty : String) (p : Params) :
    Except String ExecOutcome :=
  if ty = "screenshot" then
    .ok ⟨env.screenshotPath != "", env.screenshotPath, false⟩
  else if ty = "click" then
    if env.guiAvailable = true then do
      let (x, y) ← unpack2 (p.coordinates.getD [0, 0])
      pyCall env
      pure ⟨true, "Clicked (" ++ toString x ++ ", " ++ toString y ++ ")", false⟩
    else .ok ⟨false, "GUI not available", false⟩
  else if ty = "double_click" then
    if env.guiAvailable = true then do
      let (x, y) ← unpack2 (p.coordinates.getD [0, 0])
      pyCall env
      pure ⟨true, "Double-clicked (" ++ toString x ++ ", " ++ toString y ++ ")", false⟩
    else .ok ⟨false, "GUI not available", false⟩
  else if ty = "type" then
    if env.guiAvailable = true then do
      pyCall env
      pure ⟨true, "Typed: " ++ p.text.take 30, false⟩
    else .ok ⟨false, "GUI not available", false⟩
  else if ty = "key_press" then
    if env.guiAvailable = true then do
      pyCall env
      pure ⟨true, "Keys: " ++ String.intercalate "+" p.keys, false⟩
    else .ok ⟨false, "GUI not available", false⟩
  else if ty = "focus_window" then
    if env.guiAvailable = true then do
      pyCall env
      if env.focusVerified = true then
        pure ⟨true, "Focused " ++ p.app_name, false⟩
      else
        pure ⟨false, "Failed to focus " ++ p.app_name, false⟩
    else .ok ⟨false, "GUI not available", false⟩
  else if ty = "terminal" then
    match env.terminalOut with
    | .ok (rcZero, out) => .ok ⟨rcZero, out, false⟩
    | .error m => .ok ⟨false, m, false⟩
  else if ty = "wait" then
    .ok ⟨true, "Waited " ++ toString p.duration ++ "s", false⟩
  else if ty = "mouse_move" then
    if env.guiAvailable = true then
      match p.coordinates with
      | some (x :: y :: _) =>
        if x < 0 ∨ y < 0 then
          .ok ⟨false, "Invalid coordinates: cannot move to negative position", false⟩
        else do
          pyCall env
          pure ⟨true, "Moved to (" ++ toString x ++ ", " ++ toString y ++ ")", false⟩
      | _ => .ok ⟨false, "Coordinates required for mouse_move", false⟩
    else .ok ⟨false, "GUI not available", false⟩
  else if ty = "scroll" then
    if env.guiAvailable = true then do
      let (_x, _y) ← unpack2 (p.coordinates.getD [500, 500])
      pyCall env
      pure ⟨true, "Scrolled " ++ p.direction ++ " by " ++ toString p.amount, false⟩
    else .ok ⟨false, "GUI not available", false⟩
  else if ty = "drag" then
    if env.guiAvailable = true then
      match p.coordinates, p.end_coordinates with
      | some (sx :: sy :: _), some (ex :: ey :: _) =>
        if sx < 0 ∨ sy < 0 ∨ ex < 0 ∨ ey < 0 then
          .ok ⟨false, "Invalid coordinates: cannot drag to/from negative position", false⟩
        else do
          pyCall env
          pure ⟨true, "Dragged from (" ++ toString sx ++ ", " ++ toString sy ++
            ") to (" ++ toString ex ++ ", " ++ toString ey ++ ")", false⟩
      | _, _ => .ok ⟨false, "Both start and end coordinates required for drag", false⟩
    else .ok ⟨false, "GUI not available", false⟩
  else if ty = "execute_pyautogui" then
    if env.guiAvailable = true then
      if p.command = "" then
        .ok ⟨false, "PyAutoGUI command string required", false⟩
      else
        match env.execPyRaise with
        | some m => .ok ⟨false, "PyAutoGUI execution error: " ++ m, false⟩
        | none => .ok ⟨true, "Executed PyAutoGUI command: " ++ p.command, false⟩
    else .ok ⟨false, "GUI not available", false⟩
  else if ty = "human_in_the_loop" then
    if p.action_description = "" then
      .ok ⟨false, "Action description required for human-in-the-loop", false⟩
    else
      .ok ⟨true, "Human-in-the-loop requested", true⟩
  else
    .ok ⟨false, "Unknown action: " ++ ty, false⟩

/-- `execute_action`: the top-level `try/except` folds any raised exception
into a failure outcome, so the function is total over arbitrary action
dictionaries. -/
def execute_action (env : ExecEnv) (actionVal : Option PyVal) (p : Params) : ExecOutcome :=
  match actionVal with
  | some (.other desc) => ⟨false, "AttributeError: " ++ desc, false⟩
  | some (.str s) =>
    match execute_action_body env (pyLower s) p with
    | .ok r => r
    | .error m => ⟨false, m, false⟩
  | none =>
    match execute_action_body env "" p with
    | .ok r => r
    | .error m => ⟨false, m, false⟩

/-- The operation kinds `execute_action` dispatches on, in branch order. -/
def knownActionTypes : List String :=
  ["screenshot", "click", "double_click", "type", "key_press", "focus_window",
   "terminal", "wait", "mouse_move", "scroll", "drag", "execute_pyautogui",
   "human_in_the_loop"]

/-! ### Helper lemmas -/

theorem stepGo_main_le (act : Nat → ActResult) (judge : Nat → JudgeBehavior)
    (hv : Bool) (mr : Nat) :
    ∀ fuel retry reana, (stepGo act judge hv mr retry fuel reana).mainCalls ≤ fuel := by
  intro fuel
  induction fuel with
  | zero => intro retry reana; simp [stepGo]
  | succ f ih =>
    intro retry reana
    have h1 := ih (retry + 1) reana
    have h2 := ih (retry + 1) (verify_action hv (judge retry)).detailsReanalysis
    simp only [stepGo]
    split_ifs <;> simp [addC] <;> omega

theorem stepGo_unverified (act : Nat → ActResult) (judge : Nat → JudgeBehavior)
    (mr : Nat) (h : ∀ i, (verify_action true (judge i)).verified = false) :
    ∀ fuel retry reana, retry + fuel = mr →
      (stepGo act judge true mr retry fuel reana).mainCalls = fuel ∧
      (stepGo act judge true mr retry fuel reana).success = false := by
  intro fuel
  induction fuel with
  | zero => intro retry reana hsync; simp [stepGo]
  | succ f ih =>
    intro retry reana hsync
    rcases Nat.eq_zero_or_pos f with hf | hf
    · subst hf
      have hnlt : ¬ retry < mr - 1 := by omega
      by_cases ha : (act retry).success = false <;>
        simp [stepGo, ha, hnlt, h retry]
    · have hlt : retry < mr - 1 := by omega
      by_cases ha : (act retry).success = false
      · obtain ⟨hm, hs⟩ := ih (retry + 1) reana (by omega)
        simp [stepGo, ha, hlt, addC, hm, hs]
      · obtain ⟨hm, hs⟩ := ih (retry + 1)
          (verify_action true (judge retry)).detailsReanalysis (by omega)
        simp [stepGo, ha, hlt, h retry, addC, hm, hs]

theorem cutAfterLast_eq_none (ch : Char) :
    ∀ s : List Char, cutAfterLast ch s = none ↔ ch ∉ s := by
  intro s
  induction s with
  | nil => simp [cutAfterLast]
  | cons c rest ih =>
    simp only [cutAfterLast]
    cases hre : cutAfterLast ch rest with
    | some t =>
      have hmem : ch ∈ rest := by
        by_contra hmem
        rw [ih.mpr hmem] at hre
        simp at hre
      simp [hmem]
    | none =>
      by_cases hc : c = ch
      · subst hc
        simp
      · have hne : ¬ ch = c := fun hh => hc hh.symm
        simp [hc, hne, ih.mp hre]

theorem cutAfterLast_decomp (ch : Char) :
    ∀ s t, cutAfterLast ch s = some t →
      ∃ u b, t = u ++ [ch] ∧ s = t ++ b ∧ ch ∉ b := by
  intro s
  induction s with
  | nil => intro t ht; simp [cutAfterLast] at ht
  | cons c rest ih =>
    intro t ht
    simp only [cutAfterLast] at ht
    cases hre : cutAfterLast ch rest with
    | some t0 =>
      rw [hre] at ht
      simp only [Option.some.injEq] at ht
      obtain ⟨u, b, hu, hs, hb⟩ := ih t0 hre
      subst ht
      exact ⟨c :: u, b, by simp [hu], by simp [hs], hb⟩
    | none =>
      rw [hre] at ht
      by_cases hc : c = ch
      · subst hc
        simp at ht
        subst ht
        exact ⟨[], rest, by simp, by simp, (cutAfterLast_eq_none c rest).mp hre⟩
      · simp [hc] at ht

theorem braceSearch_none_of_no_close :
    ∀ s : List Char, '\x7d' ∉ s → braceSearch s = none := by
  intro s
  induction s with
  | nil => intro _; simp [braceSearch]
  | cons c rest ih =>
    intro h
    have hrest : '\x7d' ∉ rest := fun hh => h (List.mem_cons_of_mem _ hh)
    simp only [braceSearch]
    by_cases hc : c = '\x7b'
    · simp [hc, (cutAfterLast_eq_none '\x7d' rest).mpr hrest, ih hrest]
    · simp [hc, ih hrest]

theorem braceSearch_none_iff :
    ∀ s : List Char, braceSearch s = none ↔ hasBracePair s = false := by
  intro s
  induction s with
  | nil => simp [braceSearch, hasBracePair]
  | cons c rest ih =>
    simp only [braceSearch, hasBracePair]
    by_cases hc : c = '\x7b'
    · cases hcut : cutAfterLast '\x7d' rest with
      | some t =>
        have hmem : '\x7d' ∈ rest := by
          by_contra hm
          rw [(cutAfterLast_eq_none _ _).mpr hm] at hcut
          simp at hcut
        simp [hc, hcut, hmem]
      | none =>
        have hm : '\x7d' ∉ rest := (cutAfterLast_eq_none _ _).mp hcut
        simp [hc, hcut, hm, ih]
    · simp [hc, ih]

theorem braceSearch_decomp :
    ∀ s t, braceSearch s = some t →
      ∃ a b u, s = a ++ t ++ b ∧ '\x7b' ∉ a ∧ '\x7d' ∉ b ∧ t = '\x7b' :: u ++ ['\x7d'] := by
  intro s
  induction s with
  | nil => intro t ht; simp [braceSearch] at ht
  | cons c rest ih =>
    intro t ht
    simp only [braceSearch] at ht
    by_cases hc : c = '\x7b'
    · rw [if_pos hc] at ht
      cases hcut : cutAfterLast '\x7d' rest with
      | some t0 =>
        rw [hcut] at ht
        simp only [Option.some.injEq] at ht
        obtain ⟨u, b, hu, hsplit, hb⟩ := cutAfterLast_decomp _ rest t0 hcut
        subst ht
        subst hc
        refine ⟨[], b, u, by simp [hsplit], by simp, hb, by simp [hu]⟩
      | none =>
        rw [hcut] at ht
        have hm : '\x7d' ∉ rest := (cutAfterLast_eq_none _ _).mp hcut
        rw [braceSearch_none_of_no_close rest hm] at ht
        simp at ht
    · rw [if_neg hc] at ht
      obtain ⟨a, b, u, hsplit, ha, hb, hu⟩ := ih t ht
      refine ⟨c :: a, b, u, by simp [hsplit], ?_, hb, hu⟩
      intro hmem
      rcases List.mem_cons.mp hmem with h1 | h1
      · exact hc h1.symm
      · exact ha h1

theorem engine_failed_eq_replans (env : EngineEnv) :
    ∀ fuel actions cur it rq ts,
      ((engineLoop env fuel actions cur it rq ts).events.filter isFailedAttempt).length =
      ((engineLoop env fuel actions cur it rq ts).events.filter isReplan).length := by
  intro fuel
  induction fuel with
  | zero => intro actions cur it rq ts; simp [engineLoop]
  | succ f ih =>
    intro actions cur it rq ts
    simp only [engineLoop]
    by_cases h : cur < actions.length
    · rw [dif_pos h]
      by_cases hc : env.cancel it = true
      · rw [if_pos hc]
        simp [isFailedAttempt, isReplan]
      · rw [if_neg hc]
        by_cases hs : (execute_action_with_verification (env.act it) (env.judge it)
            (actions.get ⟨cur, h⟩)).success = true
        · rw [if_pos hs]
          simp only [List.get_eq_getElem] at hs
          simp [List.filter_cons, isFailedAttempt, isReplan, hs, ih]
        · rw [if_neg hs]
          have hs2 : (execute_action_with_verification (env.act it) (env.judge it)
              (actions.get ⟨cur, h⟩)).success = false := by
            revert hs
            cases (execute_action_with_verification (env.act it) (env.judge it)
              (actions.get ⟨cur, h⟩)).success <;> simp
          simp only [List.get_eq_getElem] at hs2
          cases hr : env.recovery rq with
          | some na =>
            simp [List.filter_cons, isFailedAttempt, isReplan, hs2, ih]
          | none =>
            simp [List.filter_cons, isFailedAttempt, isReplan, hs2]
    · rw [dif_neg h]
      simp

/-! ### Claims -/

/-- Claim C1: for every step and every run, the engine invokes the actuator
on that step's action at most `max_action_retries` (= 3) times before moving
to replan-or-abort; for a step whose verifier always returns an unverified
verdict, the step-attempt loop performs exactly 3 such actuator calls, ends
unsuccessfully, and the engine then immediately records a replan attempt
for that step index. -/
theorem claim1_step_retry_budget :
    (∀ act judge hv,
      (execute_action_with_verification act judge hv).mainCalls ≤ max_action_retries) ∧
    (∀ act judge, (∀ i, (verify_action true (judge i)).verified = false) →
      (execute_action_with_verification act judge true).mainCalls = max_action_retries ∧
      (execute_action_with_verification act judge true).success = false) ∧
    (∀ env fuel actions cur it rq ts (h : cur < actions.length),
      env.cancel it = false →
      (execute_action_with_verification (env.act it) (env.judge it)
        actions[cur]).success = false →
      ((engineLoop env (fuel + 1) actions cur it rq ts).events.take 2) =
        [.stepAttempt cur (execute_action_with_verification (env.act it) (env.judge it)
            actions[cur]),
         .replan cur (env.recovery rq).isSome]) := by
  refine ⟨?_, ?_, ?_⟩
  · intro act judge hv
    exact stepGo_main_le act judge hv max_action_retries max_action_retries 0 false
  · intro act judge hjd
    exact stepGo_unverified act judge max_action_retries hjd max_action_retries 0 false rfl
  · intro env fuel actions cur it rq ts h hc hs
    simp only [engineLoop]
    rw [dif_pos h, if_neg (by simp [hc]), if_neg (by simp [hs])]
    cases hr : env.recovery rq <;> simp

/-- Claim C1 witness: with an actuator that always succeeds and a judge that
always reports failure, the step loop makes exactly 3 actuator calls and
returns failure. -/
theorem claim1_step_retry_budget_witness :
    (execute_action_with_verification (fun _ => ⟨true, "ok"⟩)
      (fun _ => .responds ⟨"failure", "no change", none, false⟩) true).mainCalls
        = max_action_retries ∧
    (execute_action_with_verification (fun _ => ⟨true, "ok"⟩)
      (fun _ => .responds ⟨"failure", "no change", none, false⟩) true).success = false :=
  claim1_step_retry_budget.2.1 _ _ (fun _ => by decide)

/-- Claim C2 counterexample: with a step that always fails verification and
an oracle whose recovery responses always parse, the engine records two
replan attempts at step index 0 within the first two loop iterations —
refuting "exactly one replan attempt per step index, never repeated". -/
theorem claim2_counterexample :
    2 ≤ ((engineLoop
        ⟨fun _ => false, fun _ _ => ⟨true, "ok"⟩,
         fun _ _ => .responds ⟨"failure", "nothing changed", none, false⟩,
         fun _ => some [true]⟩
        2 [true] 0 0 0 true).events.filter (isReplanAt 0)).length := by decide

/-- Claim C2 (amended): after each exhaustion of a step's local retries the
engine performs exactly one replan request for that exhaustion (failed step
attempts and replan events are in bijection); an unparsable replan ends the
run at once, with the internal task-success flag false and no further
events; a parsable replan replaces the plan suffix from the failed index on
and resumes at that same index, where the (replaced) step again runs under
a fresh `execute_action_with_verification` retry budget.  Replanning at the
same index is not limited to one attempt: every later exhaustion at that
index triggers a further replan request. -/
theorem claim2_amended_replanning :
    (∀ env fuel actions cur it rq ts,
      ((engineLoop env fuel actions cur it rq ts).events.filter isFailedAttempt).length =
      ((engineLoop env fuel actions cur it rq ts).events.filter isReplan).length) ∧
    (∀ env fuel actions cur it rq ts (h : cur < actions.length),
      env.cancel it = false →
      (execute_action_with_verification (env.act it) (env.judge it)
        actions[cur]).success = false →
      env.recovery rq = none →
      engineLoop env (fuel + 1) actions cur it rq ts =
        ⟨[.stepAttempt cur (execute_action_with_verification (env.act it) (env.judge it)
            actions[cur]), .replan cur false], .finished false⟩) ∧
    (∀ env fuel actions cur it rq ts na (h : cur < actions.length),
      env.cancel it = false →
      (execute_action_with_verification (env.act it) (env.judge it)
        actions[cur]).success = false →
      env.recovery rq = some na →
      engineLoop env (fuel + 1) actions cur it rq ts =
        ⟨.stepAttempt cur (execute_action_with_verification (env.act it) (env.judge it)
            actions[cur]) ::
          .replan cur true ::
          (engineLoop env fuel (actions.take cur ++ na) cur (it + 1) (rq + 1) false).events,
         (engineLoop env fuel (actions.take cur ++ na) cur (it + 1) (rq + 1) false).result⟩) := by
  refine ⟨engine_failed_eq_replans, ?_, ?_⟩
  · intro env fuel actions cur it rq ts h hc hs hr
    simp only [engineLoop]
    rw [dif_pos h, if_neg (by simp [hc]), if_neg (by simp [hs]), hr]
    rfl
  · intro env fuel actions cur it rq ts na h hc hs hr
    simp only [engineLoop]
    rw [dif_pos h, if_neg (by simp [hc]), if_neg (by simp [hs]), hr]
    rfl

/-- Claim C2 witness: a concrete failed step followed by an unparsable
recovery terminates the run with the internal success flag false. -/
theorem claim2_amended_replanning_witness :
    engineLoop
        ⟨fun _ => false, fun _ _ => ⟨false, "boom"⟩,
         fun _ _ => .responds ⟨"failure", "nothing changed", none, false⟩,
         fun _ => none⟩
        1 [true] 0 0 0 true =
      ⟨[.stepAttempt 0 (execute_action_with_verification
          (fun _ => ⟨false, "boom"⟩)
          (fun _ => .responds ⟨"failure", "nothing changed", none, false⟩) true),
        .replan 0 false], .finished false⟩ :=
  claim2_amended_replanning.2.1
    ⟨fun _ => false, fun _ _ => ⟨false, "boom"⟩,
     fun _ _ => .responds ⟨"failure", "nothing changed", none, false⟩,
     fun _ => none⟩
    0 [true] 0 0 0 true (by decide) rfl (by decide) rfl

/-- Claim C3: the cancellation flag is read only at step-loop iteration
boundaries; whenever the flag is observed set at such a boundary the run
terminates at once in the cancelled state — the iteration performs no step
attempt, so zero further actuator calls occur after the read — and the
cancellation path reports `task_complete` with success `false` to the
frontend. -/
theorem claim3_cancellation :
    (∀ env fuel actions cur it rq ts, cur < actions.length → env.cancel it = true →
      engineLoop env (fuel + 1) actions cur it rq ts = ⟨[.cancelledAt it], .cancelled⟩) ∧
    (∀ env fuel actions cur it rq ts, cur < actions.length → env.cancel it = true →
      totalMainCalls (engineLoop env (fuel + 1) actions cur it rq ts).events = 0 ∧
      totalReanalysisCalls (engineLoop env (fuel + 1) actions cur it rq ts).events = 0) ∧
    (∀ finalJudgment, reportedTaskComplete finalJudgment .cancelled = some false) := by
  have hcl : ∀ env : EngineEnv, ∀ fuel actions cur it rq ts, cur < actions.length →
      env.cancel it = true →
      engineLoop env (fuel + 1) actions cur it rq ts = ⟨[.cancelledAt it], .cancelled⟩ := by
    intro env fuel actions cur it rq ts h hc
    simp only [engineLoop]
    rw [dif_pos h, if_pos hc]
  refine ⟨hcl, ?_, ?_⟩
  · intro env fuel actions cur it rq ts h hc
    rw [hcl env fuel actions cur it rq ts h hc]
    simp [totalMainCalls, totalReanalysisCalls, eventMainCalls, eventReanalysisCalls]
  · intro fj
    rfl

/-- Claim C3 witness: a concrete run whose cancellation flag is set at the
first boundary terminates cancelled with no step attempts. -/
theorem claim3_cancellation_witness :
    engineLoop
        ⟨fun _ => true, fun _ _ => ⟨true, "ok"⟩,
         fun _ _ => .responds ⟨"success", "done", none, false⟩,
         fun _ => none⟩
        1 [true] 0 0 0 true = ⟨[.cancelledAt 0], .cancelled⟩ :=
  claim3_cancellation.1
    ⟨fun _ => true, fun _ _ => ⟨true, "ok"⟩,
     fun _ _ => .responds ⟨"success", "done", none, false⟩,
     fun _ => none⟩
    0 [true] 0 0 0 true (by decide) rfl

/-- Claim C4 counterexample: on the fenceless input rendered by
`['\x7b', '\x7d', ' ', '\x7d']` (an object followed by a stray closing
brace) the code's fallback regex extracts the greedy span up to the last
closing brace, not the first balanced brace span the claim describes, so the
two extraction pipelines disagree. -/
theorem claim4_counterexample :
    extractJson ['\x7b', '\x7d', ' ', '\x7d'] ≠
      specExtractJson ['\x7b', '\x7d', ' ', '\x7d'] := by decide

/-- Claim C4 (amended): the parser prefers a complete fenced structured
block; with no such block present, extraction succeeds exactly when some
opening brace is followed by a closing brace (equivalently, exactly when a
balanced brace span exists is false/true in the same cases), and the
extracted span is the greedy one: it starts at the first opening brace of
the text, ends at the last closing brace, and is not balance-aware.  When
neither is present the parse yields the no-JSON-found error outcome rather
than a plan. -/
theorem claim4_amended_extraction :
    (∀ s t, fencedSearch s = some t → extractJson s = some t) ∧
    (∀ s, fencedSearch s = none → (extractJson s = none ↔ hasBracePair s = false)) ∧
    (∀ s t, fencedSearch s = none → extractJson s = some t →
      ∃ a b u, s = a ++ t ++ b ∧ '\x7b' ∉ a ∧ '\x7d' ∉ b ∧
        t = '\x7b' :: u ++ ['\x7d']) := by
  refine ⟨?_, ?_, ?_⟩
  · intro s t hf
    simp [extractJson, hf]
  · intro s hf
    simp only [extractJson, hf]
    exact braceSearch_none_iff s
  · intro s t hf he
    simp only [extractJson, hf] at he
    exact braceSearch_decomp s t he

/-- Claim C4 witness: on a concrete fenceless input with no brace pair,
extraction fails exactly as the no-JSON-found predicate says. -/
theorem claim4_amended_extraction_witness :
    extractJson ['n', 'o', 'n', 'e'] = none ↔ hasBracePair ['n', 'o', 'n', 'e'] = false :=
  claim4_amended_extraction.2.1 ['n', 'o', 'n', 'e'] (by decide)

/-- Claim C5: when the oracle reply to a task request parses but is not
task-typed (for example question-typed), `execute_task` terminates as
rejected before the step loop ever runs: zero actuator calls, the executing
state is never entered. -/
theorem claim5_question_rejected :
    ∀ reply env fuel, reply.isError = false → reply.ty = "question" →
      execute_task true reply env fuel = .rejected ∧
      runActuatorCalls (execute_task true reply env fuel) = 0 := by
  intro reply env fuel hE hT
  have hne : reply.ty ≠ "task" := by simp [hT]
  constructor
  · simp [execute_task, hE, hne]
  · simp [execute_task, hE, hne, runActuatorCalls]

/-- Claim C5 witness: a concrete question-typed reply is rejected with zero
actuator calls. -/
theorem claim5_question_rejected_witness :
    execute_task true ⟨false, "question", []⟩
        ⟨fun _ => false, fun _ _ => ⟨true, "ok"⟩,
         fun _ _ => .responds ⟨"success", "done", none, false⟩,
         fun _ => none⟩ 5 = .rejected ∧
    runActuatorCalls (execute_task true ⟨false, "question", []⟩
        ⟨fun _ => false, fun _ _ => ⟨true, "ok"⟩,
         fun _ _ => .responds ⟨"success", "done", none, false⟩,
         fun _ => none⟩ 5) = 0 :=
  claim5_question_rejected ⟨false, "question", []⟩
    ⟨fun _ => false, fun _ _ => ⟨true, "ok"⟩,
     fun _ _ => .responds ⟨"success", "done", none, false⟩,
     fun _ => none⟩ 5 rfl rfl

/-- Claim C6: a step with no (or an empty) declared verification map is
auto-verified — `verify_action` returns a verified verdict without taking a
fresh observation and without any judge call, for every judge behaviour —
and consequently a one-step plan with no expectation whose actuator call
succeeds completes the run with exactly 1 actuator call and 0 judge
calls, ending in the success state. -/
theorem claim6_no_expectation_auto :
    (∀ jb, verify_action false jb =
      ⟨true, "success", "No verification specified, assuming success",
        none, false, false, 0, 0⟩) ∧
    (∀ env : EngineEnv, (env.act 0 0).success = true → env.cancel 0 = false →
      engineLoop env 2 [false] 0 0 0 true =
        ⟨[.stepAttempt 0 ⟨true, true, "No verification specified, assuming success",
            1, 0, 0, 0⟩], .finished true⟩ ∧
      totalMainCalls (engineLoop env 2 [false] 0 0 0 true).events = 1 ∧
      totalJudgeCalls (engineLoop env 2 [false] 0 0 0 true).events = 0) := by
  constructor
  · intro jb
    rfl
  · intro env ha hc
    have hstep : execute_action_with_verification (env.act 0) (env.judge 0) false =
        ⟨true, true, "No verification specified, assuming success", 1, 0, 0, 0⟩ := by
      simp [execute_action_with_verification, max_action_retries, stepGo, ha, verify_action]
    have hrun : engineLoop env 2 [false] 0 0 0 true =
        ⟨[.stepAttempt 0 ⟨true, true, "No verification specified, assuming success",
            1, 0, 0, 0⟩], .finished true⟩ := by
      rw [show (2 : Nat) = 1 + 1 from rfl]
      simp only [engineLoop]
      rw [dif_pos (by decide), if_neg (by simp [hc])]
      simp [hstep, engineLoop]
    refine ⟨hrun, ?_, ?_⟩
    · rw [hrun]
      rfl
    · rw [hrun]
      rfl

/-- Claim C6 witness: a concrete one-step no-expectation run with a
succeeding actuator finishes successfully after one actuator call. -/
theorem claim6_no_expectation_auto_witness :
    engineLoop
        ⟨fun _ => false, fun _ _ => ⟨true, "ok"⟩,
         fun _ _ => .llmRaises "judge never consulted",
         fun _ => none⟩ 2 [false] 0 0 0 true =
      ⟨[.stepAttempt 0 ⟨true, true, "No verification specified, assuming success",
          1, 0, 0, 0⟩], .finished true⟩ :=
  (claim6_no_expectation_auto.2
    ⟨fun _ => false, fun _ _ => ⟨true, "ok"⟩,
     fun _ _ => .llmRaises "judge never consulted",
     fun _ => none⟩ rfl rfl).1

theorem stepGo_shape_congr (act : Nat → ActResult) (j1 j2 : Nat → JudgeBehavior) (mr : Nat)
    (hv : ∀ i, (verify_action true (j1 i)).verified = (verify_action true (j2 i)).verified)
    (hd : ∀ i, (verify_action true (j1 i)).detailsReanalysis =
      (verify_action true (j2 i)).detailsReanalysis)
    (hj : ∀ i, (verify_action true (j1 i)).judgeCalls = (verify_action true (j2 i)).judgeCalls)
    (ho : ∀ i, (verify_action true (j1 i)).observationsTaken =
      (verify_action true (j2 i)).observationsTaken) :
    ∀ fuel retry reana,
      (stepGo act j1 true mr retry fuel reana).success =
        (stepGo act j2 true mr retry fuel reana).success ∧
      (stepGo act j1 true mr retry fuel reana).verified =
        (stepGo act j2 true mr retry fuel reana).verified ∧
      (stepGo act j1 true mr retry fuel reana).mainCalls =
        (stepGo act j2 true mr retry fuel reana).mainCalls ∧
      (stepGo act j1 true mr retry fuel reana).reanalysisCalls =
        (stepGo act j2 true mr retry fuel reana).reanalysisCalls ∧
      (stepGo act j1 true mr retry fuel reana).judgeCalls =
        (stepGo act j2 true mr retry fuel reana).judgeCalls ∧
      (stepGo act j1 true mr retry fuel reana).observationsTaken =
        (stepGo act j2 true mr retry fuel reana).observationsTaken := by
  intro fuel
  induction fuel with
  | zero => intro retry reana; simp [stepGo]
  | succ f ih =>
    intro retry reana
    by_cases ha : (act retry).success = false
    · by_cases hlt : retry < mr - 1
      · obtain ⟨s1, s2, s3, s4, s5, s6⟩ := ih (retry + 1) reana
        simp [stepGo, ha, hlt, addC, s1, s2, s3, s4, s5, s6]
      · simp [stepGo, ha, hlt]
    · by_cases hver : (verify_action true (j1 retry)).verified = true
      · have hver2 : (verify_action true (j2 retry)).verified = true := by
          rw [← hv retry]; exact hver
        simp [stepGo, ha, hver, hver2, hj retry, ho retry]
      · have hver2 : ¬ (verify_action true (j2 retry)).verified = true := by
          rw [← hv retry]; exact hver
        by_cases hlt : retry < mr - 1
        · obtain ⟨s1, s2, s3, s4, s5, s6⟩ :=
            ih (retry + 1) ((verify_action true (j2 retry)).detailsReanalysis)
          simp [stepGo, ha, hver, hver2, hlt, addC, hd retry, hj retry, ho retry,
            s1, s2, s3, s4, s5, s6]
        · simp [stepGo, ha, hver, hver2, hlt, hj retry, ho retry]

/-- Claim C7: `verify_action` never raises — a judge exception inside
`_send_verification_to_llm` (timeout, malformed judge output) and an
exception inside `verify_action` itself both become a verdict with status
`error` and `verified = false` — and the engine's step-attempt loop handles
an always-`error` judge exactly as it handles an always-`failed` judge: the
same success flag, the same number of actuator calls, reanalysis calls and
judge calls, for every actuator behaviour. -/
theorem claim7_verifier_error_degrades :
    (∀ m, (verify_action true (.llmRaises m)).verified = false ∧
      (verify_action true (.llmRaises m)).status = "error") ∧
    (∀ m, (verify_action true (.outerRaises m)).verified = false ∧
      (verify_action true (.outerRaises m)).status = "error") ∧
    (∀ act m obs,
      (execute_action_with_verification act (fun _ => .llmRaises m) true).success =
        (execute_action_with_verification act
          (fun _ => .responds ⟨"failure", obs, none, false⟩) true).success ∧
      (execute_action_with_verification act (fun _ => .llmRaises m) true).mainCalls =
        (execute_action_with_verification act
          (fun _ => .responds ⟨"failure", obs, none, false⟩) true).mainCalls ∧
      (execute_action_with_verification act (fun _ => .llmRaises m) true).reanalysisCalls =
        (execute_action_with_verification act
          (fun _ => .responds ⟨"failure", obs, none, false⟩) true).reanalysisCalls ∧
      (execute_action_with_verification act (fun _ => .llmRaises m) true).judgeCalls =
        (execute_action_with_verification act
          (fun _ => .responds ⟨"failure", obs, none, false⟩) true).judgeCalls) := by
  refine ⟨fun m => ⟨rfl, rfl⟩, fun m => ⟨rfl, rfl⟩, ?_⟩
  intro act m obs
  obtain ⟨s1, _, s3, s4, s5, _⟩ :=
    stepGo_shape_congr act (fun _ => .llmRaises m)
      (fun _ => .responds ⟨"failure", obs, none, false⟩) max_action_retries
      (fun _ => rfl) (fun _ => rfl) (fun _ => rfl) (fun _ => rfl)
      max_action_retries 0 false
  exact ⟨s1, s3, s4, s5⟩

/-- Claim C8 counterexample: after the worker thread of a completed task has
finished, resubmitting the very same task text is accepted and started
again (`started`), not rejected — the loop tracks only thread liveness,
not completed task identities. -/
theorem claim8_counterexample :
    frontRun ⟨false, false, []⟩
        [.request "execute_task" "open calc", .workerFinished,
         .request "execute_task" "open calc"] =
      (⟨true, false, ["open calc", "open calc"]⟩,
       [some .started, none, some .started]) := by decide

/-- Claim C8 (amended): an `execute_task` request that arrives while the
previous worker thread is still alive is rejected with the busy error and
leaves the state unchanged — never queued or started; once the worker has
finished, any `execute_task` request with non-empty text, including one
that resubmits an already-completed task, clears the stop flag and starts a
new run (completed task identities are not tracked or rejected). -/
theorem claim8_amended_reentrancy :
    (∀ st t, st.workerAlive = true →
      frontStep st (.request "execute_task" t) = (st, some .busyError)) ∧
    (∀ st t, st.workerAlive = false → t ≠ "" →
      frontStep st (.request "execute_task" t) =
        (⟨true, false, st.startedTasks ++ [t]⟩, some .started)) := by
  constructor
  · intro st t hw
    simp [frontStep, hw]
  · intro st t hw ht
    simp [frontStep, hw, ht]

/-- Claim C8 witness: a concrete busy rejection. -/
theorem claim8_amended_reentrancy_witness :
    frontStep ⟨true, false, ["first task"]⟩ (.request "execute_task" "second task") =
      (⟨true, false, ["first task"]⟩, some .busyError) :=
  claim8_amended_reentrancy.1 ⟨true, false, ["first task"]⟩ "second task" rfl

/-- Claim C9 counterexample: a run that presses and holds a key and then
hits an internal exception terminates through the `except` branch without
`release_all_keys`: the held-keys set is still non-empty on that terminal
transition. -/
theorem claim9_counterexample :
    runEnhancedTask true [.press "ctrl", .raiseExn "screenshot failure"] ⟨[]⟩ =
      (⟨["ctrl"]⟩, false) ∧ (["ctrl"] : List String) ≠ [] := by decide

/-- Claim C9 (amended): on every terminal transition reached without an
internal exception — the `finished()` action or any normal exit of the step
loop (step limit, LLM-error break, parse-failure break) — `release_all_keys`
runs and the held-keys set becomes empty; a run terminated by an internal
exception skips the release and can leave keys held. -/
theorem claim9_amended_release :
    ∀ evs st, (runEnhancedTask true evs st).2 = true →
      (runEnhancedTask true evs st).1.heldKeys = [] := by
  intro evs
  induction evs with
  | nil => intro st _; rfl
  | cons e rest ih =>
    intro st h
    cases e with
    | press k => exact ih _ h
    | release k => exact ih _ h
    | otherAction => exact ih _ h
    | finishAction => rfl
    | raiseExn m => simp [runEnhancedTask] at h

/-- Claim C9 witness: a concrete exception-free run ends with an empty
held-keys set. -/
theorem claim9_amended_release_witness :
    (runEnhancedTask true [.press "ctrl", .release "ctrl", .finishAction]
        ⟨["alt"]⟩).1.heldKeys = [] :=
  claim9_amended_release [.press "ctrl", .release "ctrl", .finishAction] ⟨["alt"]⟩ rfl

/-- Claim C10: `execute_action` is total over arbitrary action
dictionaries: every outcome is a plain value with a boolean success flag
and a message; an unrecognized operation kind yields `success = false` with
an "Unknown action" message (also when the `action` key is absent), and a
non-string `action` value makes `.lower()` raise, which the top-level
`except` folds into a failure outcome instead of propagating. -/
theorem claim10_execute_action_total :
    (∀ env p s, knownActionTypes.contains (pyLower s) = false →
      execute_action env (some (.str s)) p =
        ⟨false, "Unknown action: " ++ pyLower s, false⟩) ∧
    (∀ env p, execute_action env none p = ⟨false, "Unknown action: ", false⟩) ∧
    (∀ env p d, (execute_action env (some (.other d)) p).success = false ∧
      (execute_action env (some (.other d)) p).message = "AttributeError: " ++ d) := by
  refine ⟨?_, ?_, fun env p d => ⟨rfl, rfl⟩⟩
  · intro env p s h
    simp only [knownActionTypes, List.contains_cons, List.contains_nil,
      Bool.or_eq_false_iff, beq_eq_false_iff_ne, ne_eq] at h
    obtain ⟨h1, h2, h3, h4, h5, h6, h7, h8, h9, h10, h11, h12, h13, -⟩ := h
    simp [execute_action, execute_action_body,
      h1, h2, h3, h4, h5, h6, h7, h8, h9, h10, h11, h12, h13]
  · intro env p
    simp [execute_action, execute_action_body]

/-- Claim C10 witness: a concrete unrecognized operation kind produces the
unknown-action failure outcome. -/
theorem claim10_execute_action_total_witness :
    execute_action
        ⟨true, "shot.png", none, .ok (true, "out"), true, none⟩
        (some (.str "Teleport"))
        ⟨none, none, "", [], "", 1, "", "", "down", 3⟩ =
      ⟨false, "Unknown action: " ++ pyLower "Teleport", false⟩ :=
  claim10_execute_action_total.1
    ⟨true, "shot.png", none, .ok (true, "out"), true, none⟩
    ⟨none, none, "", [], "", 1, "", "", "down", 3⟩
    "Teleport" (by decide)
